import Mathlib

/-!
Verification of the poly-model-auto-trading bot (TypeScript sources under
`src/node_bot/src` and the unnamed parts of the repository).

The embedding is a shallow one over exact rationals: every numeric value of
the TypeScript code is modelled as a `ℚ`, timestamps (epoch milliseconds)
as `Nat`, mutable module-level state as explicit state records, and
`async` functions that consult the network as pure functions taking the
network's answer as an argument.  Transcendental library primitives
(`Math.sqrt`, `Math.sin`, `Math.cos`) are opaque numeric parameters.
-/

namespace PolyBot

/-- Embedding of `Candle15m` from `model.ts` / the price-feed module: a 15-minute OHLCV
candle keyed by the epoch-millisecond timestamp of its window start. -/
structure Candle15m where
  timestamp : Nat
  open_ : ℚ
  high : ℚ
  low : ℚ
  close : ℚ
  volume : ℚ
deriving DecidableEq

/-! ## utils.ts : Kelly sizing and window alignment -/

/-- Embedding of `kellyBetSize` from `utils.ts`.  The source declares `kellyFraction`
and `maxFraction` as parameters with defaults `0.25` and `0.10`; here the
defaults are passed explicitly at each call site. -/
def kellyBetSize (probWin marketPrice kellyFraction maxFraction : ℚ) : ℚ :=
  if probWin ≤ 0 ∨ 1 ≤ probWin then 0
  else if marketPrice ≤ 0 ∨ 1 ≤ marketPrice then 0
  else
    let b := (1 - marketPrice) / marketPrice
    let q := 1 - probWin
    let fullKelly := (b * probWin - q) / b
    if fullKelly ≤ 0 then 0
    else min (fullKelly * kellyFraction) maxFraction

/-- Embedding of `calculateBetSize` from `utils.ts`: `bankroll * kellyBetSize(probWin,
marketPrice)` with the source's default quarter-Kelly and 10 percent cap. -/
def calculateBetSize (bankroll probWin marketPrice : ℚ) : ℚ :=
  bankroll * kellyBetSize probWin marketPrice (1/4) (1/10)

/-- Embedding of `get15MinWindowStart` from `utils.ts`, on epoch milliseconds: the UTC
minute count within the hour is floored to a multiple of 15 and seconds and
milliseconds are cleared (`d.setUTCMinutes(windowStartMinute, 0, 0)`). -/
def get15MinWindowStart (ts : Nat) : Nat :=
  let hourStart := ts - ts % 3600000
  let minutes := ts % 3600000 / 60000
  hourStart + minutes / 15 * 15 * 60000

/-- The minute-field computation of `get15MinWindowStart` is the same as
flooring the timestamp to a multiple of 15 minutes. -/
theorem get15MinWindowStart_eq_floor (ts : Nat) :
    get15MinWindowStart ts = ts / 900000 * 900000 := by
  show ts - ts % 3600000 + ts % 3600000 / 60000 / 15 * 15 * 60000
      = ts / 900000 * 900000
  omega

/-- A tick inside `[boundary, boundary + 15min)` for an aligned boundary is
assigned window start `boundary`. -/
theorem get15MinWindowStart_of_mem (ts boundary : Nat)
    (hb : boundary % 900000 = 0) (h1 : boundary ≤ ts)
    (h2 : ts < boundary + 900000) :
    get15MinWindowStart ts = boundary := by
  rw [get15MinWindowStart_eq_floor]
  omega

/-- The full Kelly fraction computed inside `kellyBetSize`:
`f = (b*p - (1-p))/b` with odds `b = (1-marketPrice)/marketPrice`. -/
def fullKellyOf (probWin marketPrice : ℚ) : ℚ :=
  let b := (1 - marketPrice) / marketPrice
  (b * probWin - (1 - probWin)) / b

/-- On the non-degenerate region, `kellyBetSize` is the capped, shrunk
full-Kelly fraction. -/
theorem kellyBetSize_pos_region (p mp kf mf : ℚ)
    (hp0 : 0 < p) (hp1 : p < 1) (hm0 : 0 < mp) (hm1 : mp < 1)
    (hf : ¬ fullKellyOf p mp ≤ 0) :
    kellyBetSize p mp kf mf = min (fullKellyOf p mp * kf) mf := by
  unfold kellyBetSize fullKellyOf at *
  dsimp only at *
  split_ifs with h1 h2
  · rcases h1 with h | h <;> linarith
  · rcases h2 with h | h <;> linarith
  · rfl

/-- Lemma: `kellyBetSize` returns `0` on every branch that the source guards. -/
theorem kellyBetSize_eq_zero_of_guard (p mp kf mf : ℚ)
    (h : (p ≤ 0 ∨ 1 ≤ p) ∨ (mp ≤ 0 ∨ 1 ≤ mp) ∨ fullKellyOf p mp ≤ 0) :
    kellyBetSize p mp kf mf = 0 := by
  unfold kellyBetSize fullKellyOf at *
  dsimp only at *
  split_ifs with h1 h2 h3 <;> tauto

/-- C3: `kellyBetSize(probWin, marketPrice)` (with the source's defaults)
returns 0 whenever `probWin ≤ 0`, `probWin ≥ 1`, `marketPrice ≤ 0`,
`marketPrice ≥ 1`, or the full Kelly fraction `f = (b*p-(1-p))/b` with
`b = (1-marketPrice)/marketPrice` satisfies `f ≤ 0`; otherwise it returns
`min (0.25*f) 0.10`; and `calculateBetSize 1000 0.60 0.50 = 50`. -/
theorem kellyBetSize_zero_cases_and_reference (p mp : ℚ) :
    (p ≤ 0 ∨ 1 ≤ p → kellyBetSize p mp (1/4) (1/10) = 0) ∧
    (mp ≤ 0 ∨ 1 ≤ mp → kellyBetSize p mp (1/4) (1/10) = 0) ∧
    (fullKellyOf p mp ≤ 0 → kellyBetSize p mp (1/4) (1/10) = 0) ∧
    (0 < p → p < 1 → 0 < mp → mp < 1 → ¬ fullKellyOf p mp ≤ 0 →
      kellyBetSize p mp (1/4) (1/10) = min (fullKellyOf p mp * (1/4)) (1/10)) ∧
    calculateBetSize 1000 (6/10) (5/10) = 50 := by
  refine ⟨fun h => kellyBetSize_eq_zero_of_guard _ _ _ _ (Or.inl h),
    fun h => kellyBetSize_eq_zero_of_guard _ _ _ _ (Or.inr (Or.inl h)),
    fun h => kellyBetSize_eq_zero_of_guard _ _ _ _ (Or.inr (Or.inr h)),
    fun hp0 hp1 hm0 hm1 hf => kellyBetSize_pos_region p mp _ _ hp0 hp1 hm0 hm1 hf,
    by norm_num [calculateBetSize, kellyBetSize]⟩

/-- Witness for C3 at the spec's reference point `p = 0.6`, `mp = 0.5`. -/
theorem kellyBetSize_zero_cases_and_reference_witness :
    kellyBetSize (6/10) (5/10) (1/4) (1/10)
      = min (fullKellyOf (6/10) (5/10) * (1/4)) (1/10) :=
  (kellyBetSize_zero_cases_and_reference (6/10) (5/10)).2.2.2.1
    (by norm_num) (by norm_num) (by norm_num) (by norm_num)
    (by norm_num [fullKellyOf])

/-- C4: for fixed `marketPrice ∈ (0,1)` the sizing output is monotone
non-decreasing in `probWin` on the positive-edge region; the stake fraction
never exceeds the 0.10 cap for any inputs and any shrinkage factor; hence
the dollar size never exceeds `0.10 * bankroll` for `bankroll ≥ 0`. -/
theorem kellyBetSize_monotone_and_capped :
    (∀ mp p1 p2 : ℚ, 0 < mp → mp < 1 → 0 < p1 → p1 ≤ p2 → p2 < 1 →
      ¬ fullKellyOf p1 mp ≤ 0 →
      kellyBetSize p1 mp (1/4) (1/10) ≤ kellyBetSize p2 mp (1/4) (1/10)) ∧
    (∀ p mp kf : ℚ, kellyBetSize p mp kf (1/10) ≤ 1/10) ∧
    (∀ bankroll p mp : ℚ, 0 ≤ bankroll →
      calculateBetSize bankroll p mp ≤ (1/10) * bankroll) := by
  have cap : ∀ p mp kf : ℚ, kellyBetSize p mp kf (1/10) ≤ 1/10 := by
    intro p mp kf
    unfold kellyBetSize
    dsimp only
    split_ifs <;> norm_num
  refine ⟨?_, cap, ?_⟩
  · intro mp p1 p2 hm0 hm1 hp10 hp12 hp21 hf1
    have hb : 0 < (1 - mp) / mp := div_pos (by linarith) hm0
    have hmono : fullKellyOf p1 mp ≤ fullKellyOf p2 mp := by
      unfold fullKellyOf
      rw [div_le_div_iff_of_pos_right hb]
      nlinarith [mul_le_mul_of_nonneg_left hp12 hb.le]
    have hf2 : ¬ fullKellyOf p2 mp ≤ 0 := by
      intro h; exact hf1 (le_trans hmono h)
    rw [kellyBetSize_pos_region p1 mp _ _ hp10 (by linarith) hm0 hm1 hf1,
        kellyBetSize_pos_region p2 mp _ _ (by linarith) hp21 hm0 hm1 hf2]
    exact min_le_min (by nlinarith) le_rfl
  · intro b p mp hb
    calc b * kellyBetSize p mp (1/4) (1/10)
        ≤ b * (1/10) := mul_le_mul_of_nonneg_left (cap p mp (1/4)) hb
      _ = (1/10) * b := mul_comm _ _

/-- Witness for C4: monotonicity applied at `p1 = 0.6 ≤ p2 = 0.7`,
`mp = 0.5`, plus the cap at the same point. -/
theorem kellyBetSize_monotone_and_capped_witness :
    kellyBetSize (6/10) (5/10) (1/4) (1/10)
      ≤ kellyBetSize (7/10) (5/10) (1/4) (1/10) :=
  kellyBetSize_monotone_and_capped.1 (5/10) (6/10) (7/10)
    (by norm_num) (by norm_num) (by norm_num) (by norm_num) (by norm_num)
    (by norm_num [fullKellyOf])

/-! ## The price-feed module : Binance stream aggregation and the Chainlink
secondary poll -/

/-- The module-level mutable state of the price-feed file: last stream
price, last update time, the closed 15-minute candles, the currently open
candle, whether the Chainlink feed object is still set (`chainlinkFeed !==
null`), and the consecutive Chainlink failure counter. -/
structure FeedState where
  latestPrice : ℚ
  lastUpdateTime : Nat
  candles15m : List Candle15m
  currentCandle : Option Candle15m
  chainlinkFeedActive : Bool
  chainlinkFailureCount : Nat
deriving DecidableEq

/-- The price-feed state at module load: zero price, zero update time, no
candles, Chainlink initialised and with no failures yet. -/
def initialFeedState : FeedState :=
  { latestPrice := 0, lastUpdateTime := 0, candles15m := [],
    currentCandle := none, chainlinkFeedActive := true,
    chainlinkFailureCount := 0 }

/-- Embedding of `isPriceFeedHealthy` from the price-feed file: an update within the
last 60 seconds and a non-zero last price.  `now` stands for `Date.now()`. -/
def isPriceFeedHealthy (now : Nat) (s : FeedState) : Bool :=
  decide (now - s.lastUpdateTime < 60000) && decide (0 < s.latestPrice)

/-- Embedding of `fetchChainlinkPrice` from the price-feed file.  `pollResult` is the
outcome of the on-chain round-data call: `some price` on success (already
scaled by the feed's decimals), `none` when the call failed or timed out.
`MAX_CHAINLINK_FAILURES = 3`.  On success the failure counter resets and
the price is returned; no other field of the state is touched. -/
def fetchChainlinkPrice (pollResult : Option ℚ) (s : FeedState) :
    Option ℚ × FeedState :=
  if ¬ s.chainlinkFeedActive ∨ 3 ≤ s.chainlinkFailureCount then (none, s)
  else
    match pollResult with
    | some price => (some price, { s with chainlinkFailureCount := 0 })
    | none =>
      let n := s.chainlinkFailureCount + 1
      if 3 ≤ n then
        (none, { s with chainlinkFailureCount := n, chainlinkFeedActive := false })
      else
        (none, { s with chainlinkFailureCount := n })

/-- Embedding of `aggregateTo15Min` from the price-feed file: route a 1-minute kline
into the 15-minute candle of its window.  A new window seals the previous
open candle into history (guarded by the JS truthiness test
`currentCandle && currentCandle.timestamp`, i.e. a zero timestamp is not
pushed) and keeps at most 100 closed candles. -/
def aggregateTo15Min (timestamp : Nat) (o h l c v : ℚ) (s : FeedState) :
    FeedState :=
  let windowTs := get15MinWindowStart timestamp
  match s.currentCandle with
  | some cur =>
    if cur.timestamp = windowTs then
      { s with currentCandle := some { cur with
          high := max cur.high h, low := min cur.low l,
          close := c, volume := cur.volume + v } }
    else
      let history :=
        if cur.timestamp ≠ 0 then
          let pushed := s.candles15m ++ [cur]
          if 100 < pushed.length then pushed.tail else pushed
        else s.candles15m
      { s with
        candles15m := history,
        currentCandle := some ⟨windowTs, o, h, l, c, v⟩ }
  | none =>
      { s with currentCandle := some ⟨windowTs, o, h, l, c, v⟩ }

/-- The Binance websocket kline handler: records the latest price and
update time, then aggregates the kline into the 15-minute history. -/
def onKlineMessage (now : Nat) (timestamp : Nat) (o h l c v : ℚ)
    (s : FeedState) : FeedState :=
  aggregateTo15Min timestamp o h l c v
    { s with latestPrice := c, lastUpdateTime := now }

/-- C6 counterexample: a successful Chainlink poll (price 50000) on the
fresh state does NOT populate the heartbeat: `lastUpdateTime` and
`latestPrice` stay at 0 and the feed still reports unhealthy immediately
after the poll (1 second after start, well inside the staleness bound). -/
theorem fetchChainlinkPrice_no_heartbeat :
    (fetchChainlinkPrice (some 50000) initialFeedState).1 = some 50000 ∧
    (fetchChainlinkPrice (some 50000) initialFeedState).2.lastUpdateTime = 0 ∧
    (fetchChainlinkPrice (some 50000) initialFeedState).2.latestPrice = 0 ∧
    isPriceFeedHealthy 1000
      (fetchChainlinkPrice (some 50000) initialFeedState).2 = false := by
  decide

/-- C6 (amended): a successful secondary (Chainlink) poll resets the
Chainlink failure counter and returns the price, but it leaves
`latestPrice`, `lastUpdateTime` and the candle history untouched, so the
health verdict of `isPriceFeedHealthy` is unchanged by secondary polls and
a secondary poll never overwrites primary-derived candles. -/
theorem fetchChainlinkPrice_heartbeat (res : Option ℚ) (s : FeedState)
    (now : Nat) :
    (fetchChainlinkPrice res s).2.latestPrice = s.latestPrice ∧
    (fetchChainlinkPrice res s).2.lastUpdateTime = s.lastUpdateTime ∧
    (fetchChainlinkPrice res s).2.candles15m = s.candles15m ∧
    (fetchChainlinkPrice res s).2.currentCandle = s.currentCandle ∧
    isPriceFeedHealthy now (fetchChainlinkPrice res s).2
      = isPriceFeedHealthy now s ∧
    (∀ p : ℚ, s.chainlinkFeedActive = true → s.chainlinkFailureCount < 3 →
      res = some p →
      (fetchChainlinkPrice res s).1 = some p ∧
      (fetchChainlinkPrice res s).2.chainlinkFailureCount = 0) := by
  rcases s with ⟨lp, lut, cs, cc, act, cnt⟩
  rcases res with _ | p <;>
    simp only [fetchChainlinkPrice] <;>
    split_ifs with h1 h2 <;>
    simp_all [isPriceFeedHealthy]
  intro hact
  rcases h1 with h | h
  · rw [hact] at h; exact absurd h (by simp)
  · exact h

/-- Witness for the amended C6: the successful poll of the counterexample
indeed resets the failure counter and hands back the price. -/
theorem fetchChainlinkPrice_heartbeat_witness :
    (fetchChainlinkPrice (some 123) initialFeedState).1 = some 123 ∧
    (fetchChainlinkPrice (some 123) initialFeedState).2.chainlinkFailureCount
      = 0 :=
  (fetchChainlinkPrice_heartbeat (some 123) initialFeedState 5).2.2.2.2.2
    123 rfl (by decide) rfl

/-! ## Candle aggregation (C7) -/

/-- A 1-minute kline tick as consumed by `aggregateTo15Min`. -/
structure Tick where
  timestamp : Nat
  open_ : ℚ
  high : ℚ
  low : ℚ
  close : ℚ
  volume : ℚ
deriving DecidableEq

/-- Feed one tick to the aggregator. -/
def applyTick (s : FeedState) (t : Tick) : FeedState :=
  aggregateTo15Min t.timestamp t.open_ t.high t.low t.close t.volume s

/-- Feed a sequence of ticks to the aggregator, in order. -/
def applyTicks (ticks : List Tick) (s : FeedState) : FeedState :=
  ticks.foldl applyTick s

section FoldLemmas

variable {α : Type*} [LinearOrder α]

theorem le_foldl_max (b : α) (l : List α) : b ≤ l.foldl max b := by
  induction l generalizing b with
  | nil => exact le_rfl
  | cons x l ih => exact le_trans (le_max_left b x) (ih (max b x))

theorem mem_le_foldl_max {x : α} {l : List α} (hx : x ∈ l) (b : α) :
    x ≤ l.foldl max b := by
  induction l generalizing b with
  | nil => cases hx
  | cons y l ih =>
    rcases List.mem_cons.mp hx with h | h
    · subst h
      exact le_trans (le_max_right b x) (le_foldl_max _ _)
    · exact ih h _

theorem foldl_max_mem (b : α) (l : List α) : l.foldl max b ∈ b :: l := by
  induction l generalizing b with
  | nil => exact List.mem_singleton.mpr rfl
  | cons x l ih =>
    rcases List.mem_cons.mp (ih (max b x)) with h | h
    · rcases max_choice b x with hm | hm <;> rw [List.foldl_cons, h, hm]
      · exact List.mem_cons_self _ _
      · exact List.mem_cons_of_mem _ (List.mem_cons_self _ _)
    · exact List.mem_cons_of_mem _ (List.mem_cons_of_mem _ h)

theorem foldl_min_le {x : α} {l : List α} (hx : x ∈ l) (b : α) :
    l.foldl min b ≤ x := by
  have := mem_le_foldl_max (α := αᵒᵈ) hx b
  exact this

theorem foldl_min_mem (b : α) (l : List α) : l.foldl min b ∈ b :: l :=
  foldl_max_mem (α := αᵒᵈ) b l

theorem foldl_le_min (b : α) (l : List α) : l.foldl min b ≤ b :=
  le_foldl_max (α := αᵒᵈ) b l

end FoldLemmas

/-- Replaying a list with `fun _ x => x` keeps the last element. -/
theorem foldl_const_getLastD {α : Type*} (l : List α) (b : α) :
    l.foldl (fun _ x => x) b = l.getLastD b := by
  induction l generalizing b with
  | nil => rfl
  | cons a l ih => rw [List.foldl_cons, ih, List.getLastD_cons]

theorem getLastD_map_of_getLast? {α β : Type*} (f : α → β) :
    ∀ (l : List α) (x : α), l.getLast? = some x →
      ∀ b : β, (l.map f).getLastD b = f x := by
  intro l
  induction l with
  | nil => intro x hx; cases hx
  | cons a l ih =>
    intro x hx b
    cases l with
    | nil =>
      simp only [List.getLast?_singleton, Option.some.injEq] at hx
      simp [hx]
    | cons a2 l2 =>
      rw [List.getLast?_cons_cons] at hx
      rw [List.map_cons, List.getLastD_cons]
      exact ih x hx (f a)

/-- The fresh open candle created from a tick that starts a new window. -/
def tickCandle (t : Tick) : Candle15m :=
  ⟨get15MinWindowStart t.timestamp, t.open_, t.high, t.low, t.close, t.volume⟩

/-- The update of the open candle by a tick of the same window. -/
def mergeTick (c : Candle15m) (t : Tick) : Candle15m :=
  { c with
    high := max c.high t.high,
    low := min c.low t.low,
    close := t.close,
    volume := c.volume + t.volume }

/-- Applying ticks that all fall in the already-open candle's window folds
`max` over highs, `min` over lows, keeps the last close and sums volumes. -/
theorem applyTicks_open (W : Nat) (ticks : List Tick) :
    ∀ (s : FeedState) (c : Candle15m),
      s.currentCandle = some c → c.timestamp = W →
      (∀ t ∈ ticks, get15MinWindowStart t.timestamp = W) →
      (applyTicks ticks s).currentCandle = some
        { timestamp := W,
          open_ := c.open_,
          high := (ticks.map Tick.high).foldl max c.high,
          low := (ticks.map Tick.low).foldl min c.low,
          close := (ticks.map Tick.close).foldl (fun _ x => x) c.close,
          volume := (ticks.map Tick.volume).foldl (fun a x => a + x) c.volume } := by
  induction ticks with
  | nil =>
    intro s c hs hts _
    simp only [applyTicks, List.foldl_nil, List.map_nil]
    rw [hs]
    cases c
    simp_all
  | cons t rest ih =>
    intro s c hs hts hw
    have hwt : get15MinWindowStart t.timestamp = W :=
      hw t (List.mem_cons_self _ _)
    have h1 : applyTick s t
        = { s with currentCandle := some (mergeTick c t) } := by
      unfold applyTick aggregateTo15Min mergeTick
      rw [hs]
      dsimp only
      rw [if_pos (by rw [hts, hwt])]
    show (applyTicks rest (applyTick s t)).currentCandle = _
    rw [h1]
    simp only [List.map_cons, List.foldl_cons]
    exact ih { s with currentCandle := some (mergeTick c t) } (mergeTick c t)
      rfl (by simp [mergeTick, hts])
      (fun u hu => hw u (List.mem_cons_of_mem _ hu))

/-- Feeding a nonempty same-window tick list into a state without an open
candle produces the candle of that window, with folded high/low/volume and
the last close. -/
theorem applyTicks_fresh (W : Nat) (t : Tick) (rest : List Tick)
    (s : FeedState) (hs : s.currentCandle = none)
    (hw : ∀ u ∈ t :: rest, get15MinWindowStart u.timestamp = W) :
    (applyTicks (t :: rest) s).currentCandle = some
      { timestamp := W,
        open_ := t.open_,
        high := (rest.map Tick.high).foldl max t.high,
        low := (rest.map Tick.low).foldl min t.low,
        close := (rest.map Tick.close).foldl (fun _ x => x) t.close,
        volume := (rest.map Tick.volume).foldl (fun a x => a + x) t.volume } := by
  have hwt : get15MinWindowStart t.timestamp = W :=
    hw t (List.mem_cons_self _ _)
  have h1 : applyTick s t
      = { s with currentCandle := some (tickCandle t) } := by
    unfold applyTick aggregateTo15Min tickCandle
    rw [hs]
  show (applyTicks rest (applyTick s t)).currentCandle = _
  rw [h1]
  exact applyTicks_open W rest
    { s with currentCandle := some (tickCandle t) } (tickCandle t) rfl
    (by simp [tickCandle, hwt])
    (fun u hu => hw u (List.mem_cons_of_mem _ hu))

/-- The open candle after a nonempty same-window burst: its high is the
greatest tick high (a member and an upper bound), its low the least tick
low, and its close the close of the last tick applied. -/
theorem applyTicks_characterization (W : Nat) (ticks : List Tick)
    (s : FeedState) (hs : s.currentCandle = none) (hne : ticks ≠ [])
    (hw : ∀ t ∈ ticks, get15MinWindowStart t.timestamp = W) :
    ∃ c, (applyTicks ticks s).currentCandle = some c ∧
      c.timestamp = W ∧
      c.high ∈ ticks.map Tick.high ∧ (∀ x ∈ ticks.map Tick.high, x ≤ c.high) ∧
      c.low ∈ ticks.map Tick.low ∧ (∀ x ∈ ticks.map Tick.low, c.low ≤ x) ∧
      (∀ lt, ticks.getLast? = some lt → c.close = lt.close) := by
  obtain ⟨t, rest, rfl⟩ : ∃ t rest, ticks = t :: rest := by
    cases ticks with
    | nil => exact absurd rfl hne
    | cons t rest => exact ⟨t, rest, rfl⟩
  refine ⟨_, applyTicks_fresh W t rest s hs hw, rfl, ?_, ?_, ?_, ?_, ?_⟩
  · simpa using foldl_max_mem t.high (rest.map Tick.high)
  · intro x hx
    rw [List.map_cons] at hx
    rcases List.mem_cons.mp hx with h | h
    · subst h; exact le_foldl_max _ _
    · exact mem_le_foldl_max h _
  · simpa using foldl_min_mem t.low (rest.map Tick.low)
  · intro x hx
    rw [List.map_cons] at hx
    rcases List.mem_cons.mp hx with h | h
    · subst h; exact foldl_le_min _ _
    · exact foldl_min_le h _
  · intro lt hlt
    show (rest.map Tick.close).foldl (fun _ x => x) t.close = lt.close
    rw [foldl_const_getLastD]
    have : ((t :: rest).map Tick.close).getLastD t.close = lt.close :=
      getLastD_map_of_getLast? Tick.close (t :: rest) lt hlt t.close
    rw [List.map_cons, List.getLastD_cons] at this
    exact this

/-- C7: a tick with timestamp in `[boundary, boundary + 15min)` for an
aligned UTC boundary lands in the candle stamped with that boundary; and
for ticks of one window the aggregated high/low do not depend on the
application order while the close is the close of the last applied tick. -/
theorem aggregateTo15Min_alignment_and_order :
    (∀ (s : FeedState) (ts : Nat) (o h l c v : ℚ) (boundary : Nat),
      boundary % 900000 = 0 → boundary ≤ ts → ts < boundary + 900000 →
      ∃ cand, (aggregateTo15Min ts o h l c v s).currentCandle = some cand ∧
        cand.timestamp = boundary) ∧
    (∀ (W : Nat) (ticks1 ticks2 : List Tick) (s1 s2 : FeedState),
      s1.currentCandle = none → s2.currentCandle = none → ticks1 ≠ [] →
      ticks1.Perm ticks2 →
      (∀ t ∈ ticks1, get15MinWindowStart t.timestamp = W) →
      ∃ c1 c2, (applyTicks ticks1 s1).currentCandle = some c1 ∧
        (applyTicks ticks2 s2).currentCandle = some c2 ∧
        c1.high = c2.high ∧ c1.low = c2.low ∧
        (∀ lt, ticks1.getLast? = some lt → c1.close = lt.close)) := by
  constructor
  · intro s ts o h l c v boundary hb h1 h2
    have hts : get15MinWindowStart ts = boundary :=
      get15MinWindowStart_of_mem ts boundary hb h1 h2
    unfold aggregateTo15Min
    cases hcc : s.currentCandle with
    | none => exact ⟨_, rfl, hts⟩
    | some cur =>
      dsimp only
      split_ifs with hcur
      · exact ⟨_, rfl, by rw [hcur, hts]⟩
      all_goals exact ⟨_, rfl, hts⟩
  · intro W ticks1 ticks2 s1 s2 hs1 hs2 hne hperm hw
    have hne2 : ticks2 ≠ [] := by
      intro h
      exact hne (List.Perm.eq_nil (h ▸ hperm))
    have hw2 : ∀ t ∈ ticks2, get15MinWindowStart t.timestamp = W :=
      fun t ht => hw t (hperm.mem_iff.mpr ht)
    obtain ⟨c1, hc1, -, hmem1, hub1, hmeml1, hlb1, hcl1⟩ :=
      applyTicks_characterization W ticks1 s1 hs1 hne hw
    obtain ⟨c2, hc2, -, hmem2, hub2, hmeml2, hlb2, -⟩ :=
      applyTicks_characterization W ticks2 s2 hs2 hne2 hw2
    have hmap : (ticks1.map Tick.high).Perm (ticks2.map Tick.high) :=
      hperm.map _
    have hmapl : (ticks1.map Tick.low).Perm (ticks2.map Tick.low) :=
      hperm.map _
    refine ⟨c1, c2, hc1, hc2, le_antisymm ?_ ?_, le_antisymm ?_ ?_, hcl1⟩
    · exact hub2 _ (hmap.mem_iff.mp hmem1)
    · exact hub1 _ (hmap.mem_iff.mpr hmem2)
    · exact hlb1 _ (hmapl.mem_iff.mpr hmeml2)
    · exact hlb2 _ (hmapl.mem_iff.mp hmeml1)

/-- A concrete tick at the very start of the 00:15 UTC window. -/
def tickA : Tick := ⟨900000, 1, 5, 1, 2, 1⟩

/-- A concrete tick 500 ms later in the same window. -/
def tickB : Tick := ⟨900500, 2, 7, 0, 3, 1⟩

/-- Witness for C7: routing a tick at 900100 ms into the 900000 boundary,
and order-independence of high/low for the two-tick burst `[tickA, tickB]`
against its transposition. -/
theorem aggregateTo15Min_alignment_and_order_witness :
    (∃ cand,
      (aggregateTo15Min 900100 1 2 0 1 1 initialFeedState).currentCandle
        = some cand ∧ cand.timestamp = 900000) ∧
    (∃ c1 c2,
      (applyTicks [tickA, tickB] initialFeedState).currentCandle = some c1 ∧
      (applyTicks [tickB, tickA] initialFeedState).currentCandle = some c2 ∧
      c1.high = c2.high ∧ c1.low = c2.low ∧
      (∀ lt, [tickA, tickB].getLast? = some lt → c1.close = lt.close)) :=
  ⟨aggregateTo15Min_alignment_and_order.1 initialFeedState 900100 1 2 0 1 1
      900000 (by decide) (by decide) (by decide),
    aggregateTo15Min_alignment_and_order.2 900000 [tickA, tickB]
      [tickB, tickA] initialFeedState initialFeedState rfl rfl (by decide)
      (by decide) (by decide)⟩

/-! ## model.ts : the feature builder -/

/-- The transcendental numeric primitives used by `prepareFeatures`.
`Math.sqrt` and the composites `h ↦ sin(2π h/24)`, `h ↦ cos(2π h/24)`,
`m ↦ sin(2π m/60)`, `m ↦ cos(2π m/60)` have no exact rational value, so
they are opaque parameters of the embedding. -/
structure MathPrims where
  sqrt : ℚ → ℚ
  hourSin : Nat → ℚ
  hourCos : Nat → ℚ
  minuteSin : Nat → ℚ
  minuteCos : Nat → ℚ

/-- The model manifest (`metadata.json`): feature names and count. -/
structure ModelMetadata where
  feature_names : List String
  n_features : Nat

/-- Embedding of `rsi` from `model.ts`. -/
def rsi (closes : List ℚ) (period : Nat) : ℚ :=
  if closes.length < period + 1 then 50
  else
    let changes := (List.range period).map (fun j =>
      closes.getD (closes.length - period + j) 0
        - closes.getD (closes.length - period + j - 1) 0)
    let gains := (changes.filter (fun c => decide (0 < c))).sum
    let losses := -((changes.filter (fun c => !(decide (0 < c)))).sum)
    if losses = 0 then 100
    else
      let rs := gains / losses
      100 - 100 / (1 + rs)

/-- Embedding of `ema` from `model.ts`: seeded with the first value, folded forward with
`k = 2/(period+1)`. -/
def ema (values : List ℚ) (period : Nat) : ℚ :=
  match values with
  | [] => 0
  | v :: rest =>
    let k : ℚ := 2 / ((period : ℚ) + 1)
    rest.foldl (fun result x => x * k + result * (1 - k)) v

/-- Embedding of `sma` from `model.ts`: mean of the last `period` values
(`values.slice(-period)`). -/
def sma (values : List ℚ) (period : Nat) : ℚ :=
  let s := values.drop (values.length - period)
  s.sum / (s.length : ℚ)

/-- Embedding of `stdDev` from `model.ts` (population standard deviation), with the
square root primitive passed in. -/
def stdDev (sqrt : ℚ → ℚ) (values : List ℚ) : ℚ :=
  if values.length = 0 then 0
  else
    let mean := values.sum / (values.length : ℚ)
    sqrt ((values.map (fun v => (v - mean) ^ 2)).sum / (values.length : ℚ))

/-- The true ranges of consecutive candle pairs, as computed in `atr`. -/
def trueRangesOf (candles : List Candle15m) : List ℚ :=
  (candles.zip candles.tail).map (fun pc =>
    max (pc.2.high - pc.2.low)
      (max |pc.2.high - pc.1.close| |pc.2.low - pc.1.close|))

/-- Embedding of `atr` from `model.ts`. -/
def atr (candles : List Candle15m) (period : Nat) : ℚ :=
  sma (trueRangesOf candles) period

/-- The epsilon used by the guarded denominators in `prepareFeatures`. -/
def EPS : ℚ := 1 / 10000000000

/-- All intermediate values of `prepareFeatures`, computed once so that the
feature list and the denominator lists below share a single source. -/
structure FeatureInterm where
  closes : List ℚ
  volumes : List ℚ
  lastClose : ℚ
  lastOpen : ℚ
  lastHigh : ℚ
  lastLow : ℚ
  lastVolume : ℚ
  prevClose1 : ℚ
  prevClose2 : ℚ
  prevClose4 : ℚ
  prevClose8 : ℚ
  bodyRange : ℚ
  macdLine : ℚ
  macdSignal : ℚ
  bbMiddle : ℚ
  bbStd : ℚ
  bbUpper : ℚ
  bbLower : ℚ
  volumeSma8 : ℚ
  prevVolume : ℚ
  close4Ago : ℚ
  ema4 : ℚ
  ema8 : ℚ
  mean8 : ℚ
  std8 : ℚ
  hour : Nat
  minute : Nat

/-- The intermediates of `prepareFeatures` on a history whose last element
is `last`. -/
def featureInterm (m : MathPrims) (candles : List Candle15m)
    (last : Candle15m) : FeatureInterm :=
  let closes := candles.map Candle15m.close
  let volumes := candles.map Candle15m.volume
  let macdLine := ema closes 12 - ema closes 26
  let bbMiddle := sma closes 20
  let bbStd := stdDev m.sqrt (closes.drop (closes.length - 20))
  { closes := closes
    volumes := volumes
    lastClose := last.close
    lastOpen := last.open_
    lastHigh := last.high
    lastLow := last.low
    lastVolume := last.volume
    prevClose1 := closes.getD (closes.length - 1 - 1) last.close
    prevClose2 := closes.getD (closes.length - 1 - 2) last.close
    prevClose4 := closes.getD (closes.length - 1 - 4) last.close
    prevClose8 := closes.getD (closes.length - 1 - 8) last.close
    bodyRange := last.high - last.low + EPS
    macdLine := macdLine
    macdSignal := ema [macdLine] 9
    bbMiddle := bbMiddle
    bbStd := bbStd
    bbUpper := bbMiddle + 2 * bbStd
    bbLower := bbMiddle - 2 * bbStd
    volumeSma8 := sma volumes 8
    prevVolume := volumes.getD (volumes.length - 2) last.volume
    close4Ago := closes.getD (closes.length - 5) last.close
    ema4 := ema closes 4
    ema8 := ema closes 8
    mean8 := sma closes 8
    std8 := stdDev m.sqrt (closes.drop (closes.length - 8))
    hour := last.timestamp / 3600000 % 24
    minute := last.timestamp / 60000 % 60 }

/-- The 32 raw features of `prepareFeatures`, in source push order. -/
def rawFeatures (m : MathPrims) (candles : List Candle15m)
    (last : Candle15m) : List ℚ :=
  let I := featureInterm m candles last
  [ (I.lastClose - I.prevClose1) / I.prevClose1,
    (I.lastClose - I.prevClose2) / I.prevClose2,
    (I.lastClose - I.prevClose4) / I.prevClose4,
    (I.lastClose - I.prevClose8) / I.prevClose8,
    (I.lastClose - I.lastOpen) / I.bodyRange,
    (I.lastHigh - max I.lastClose I.lastOpen) / I.bodyRange,
    (min I.lastClose I.lastOpen - I.lastLow) / I.bodyRange,
    if I.lastOpen ≤ I.lastClose then 1 else 0,
    rsi I.closes 7,
    rsi I.closes 14,
    I.macdLine,
    I.macdSignal,
    I.macdLine - I.macdSignal,
    (I.lastClose - I.bbLower) / (I.bbUpper - I.bbLower + EPS),
    (I.bbUpper - I.bbLower) / I.bbMiddle,
    stdDev m.sqrt (I.closes.drop (I.closes.length - 4)) / I.lastClose,
    stdDev m.sqrt (I.closes.drop (I.closes.length - 8)) / I.lastClose,
    atr candles 7 / I.lastClose,
    I.lastVolume / (I.volumeSma8 + EPS),
    (I.lastVolume - I.prevVolume) / (I.prevVolume + EPS),
    I.lastClose - I.close4Ago,
    (I.lastClose - I.close4Ago) / (I.close4Ago + EPS),
    I.ema4,
    I.ema8,
    I.lastClose / I.ema4,
    I.lastClose / I.ema8,
    if I.ema8 < I.ema4 then 1 else 0,
    (I.lastClose - I.mean8) / (I.std8 + EPS),
    m.hourSin I.hour,
    m.hourCos I.hour,
    m.minuteSin I.minute,
    m.minuteCos I.minute ]

/-- The denominators of the ratio features that the source guards with
`+ 1e-10`: the candle shape ratios, Bollinger position, volume ratio,
volume change, rate-of-change and z-score. -/
def guardedDenominators (m : MathPrims) (candles : List Candle15m)
    (last : Candle15m) : List ℚ :=
  let I := featureInterm m candles last
  [ I.bodyRange,
    I.bbUpper - I.bbLower + EPS,
    I.volumeSma8 + EPS,
    I.prevVolume + EPS,
    I.close4Ago + EPS,
    I.std8 + EPS ]

/-- The denominators of the ratio features that the source does NOT guard:
the four returns divide by the looked-up previous close, Bollinger width by
the middle band, the three volatility ratios by the last close, and the
close-to-EMA ratios by the EMAs. -/
def unguardedDenominators (m : MathPrims) (candles : List Candle15m)
    (last : Candle15m) : List ℚ :=
  let I := featureInterm m candles last
  [ I.prevClose1, I.prevClose2, I.prevClose4, I.prevClose8,
    I.bbMiddle,
    I.lastClose, I.lastClose, I.lastClose,
    I.ema4, I.ema8 ]

/-- Embedding of `prepareFeatures` from `model.ts`: insufficient history throws; the
feature vector is padded with zeros or truncated to the manifest length
(`metadata?.n_features ?? features.length`). -/
def prepareFeatures (m : MathPrims) (md : Option ModelMetadata)
    (candles : List Candle15m) : Except String (List ℚ) :=
  if candles.length < 20 then
    Except.error "need at least 20 candles"
  else
    match candles.getLast? with
    | none => Except.error "no data"
    | some last =>
      let features := rawFeatures m candles last
      let expected :=
        match md with
        | some meta => meta.n_features
        | none => features.length
      Except.ok
        ((features ++ List.replicate (expected - features.length) 0).take
          expected)

/-- An element delivered by `getLast?` is a member of the list. -/
theorem mem_of_getLast_opt {α : Type*} {l : List α} {x : α}
    (h : l.getLast? = some x) : x ∈ l := by
  have hne : l ≠ [] := by
    intro he
    rw [he] at h
    cases h
  rw [List.getLast?_eq_getLast l hne] at h
  exact (Option.some.inj h) ▸ List.getLast_mem hne

/-- Lemma: `getD` stays nonnegative when the list and the default are. -/
theorem getD_nonneg {l : List ℚ} {i : Nat} {d : ℚ}
    (hl : ∀ x ∈ l, 0 ≤ x) (hd : 0 ≤ d) : 0 ≤ l.getD i d := by
  rw [List.getD_eq_getElem?_getD]
  cases h : l[i]? with
  | none => simpa using hd
  | some a =>
    simp only [Option.getD_some]
    exact hl a (List.getElem?_mem h)

/-- The trailing mean `sma` of nonnegative values is nonnegative. -/
theorem sma_nonneg {v : List ℚ} (h : ∀ x ∈ v, 0 ≤ x) (p : Nat) :
    0 ≤ sma v p := by
  unfold sma
  dsimp only
  apply div_nonneg
  · exact List.sum_nonneg (fun x hx => h x (List.mem_of_mem_drop hx))
  · exact Nat.cast_nonneg _

/-- Lemma: `stdDev` is nonnegative whenever the square-root primitive maps
nonnegative inputs to nonnegative outputs (as `Math.sqrt` does). -/
theorem stdDev_nonneg (sqrt : ℚ → ℚ)
    (hs : ∀ x : ℚ, 0 ≤ x → 0 ≤ sqrt x) (v : List ℚ) :
    0 ≤ stdDev sqrt v := by
  unfold stdDev
  dsimp only
  split_ifs
  · exact le_refl 0
  · apply hs
    apply div_nonneg
    · apply List.sum_nonneg
      intro x hx
      rw [List.mem_map] at hx
      obtain ⟨a, -, rfl⟩ := hx
      exact sq_nonneg _
    · exact Nat.cast_nonneg _

/-- Zero-padding to `n` then truncating to `n` always yields length `n`. -/
theorem pad_take_length (l : List ℚ) (n : Nat) :
    ((l ++ List.replicate (n - l.length) 0).take n).length = n := by
  simp only [List.length_take, List.length_append, List.length_replicate]
  omega

/-- C8: `prepareFeatures` fails exactly on histories shorter than 20; with
a loaded manifest and enough history it returns a vector whose length is
the manifest's `n_features` (by zero-padding or truncation), without
aborting. -/
theorem prepareFeatures_precondition_and_shape (m : MathPrims)
    (md : Option ModelMetadata) (candles : List Candle15m) :
    ((∃ e, prepareFeatures m md candles = Except.error e) ↔
      candles.length < 20) ∧
    (∀ meta, md = some meta → 20 ≤ candles.length →
      ∃ fs, prepareFeatures m md candles = Except.ok fs ∧
        fs.length = meta.n_features) := by
  by_cases hlen : candles.length < 20
  · refine ⟨⟨fun _ => hlen,
      fun _ => ⟨"need at least 20 candles", ?_⟩⟩, fun meta _ hge => ?_⟩
    · unfold prepareFeatures
      rw [if_pos hlen]
    · omega
  · have hne : candles ≠ [] := by
      intro h
      subst h
      exact hlen (by norm_num)
    obtain ⟨lastC, hlast⟩ : ∃ lastC, candles.getLast? = some lastC := by
      cases h : candles.getLast? with
      | none => exact absurd (List.getLast?_eq_none_iff.mp h) hne
      | some a => exact ⟨a, rfl⟩
    have hok : ∃ fs, prepareFeatures m md candles = Except.ok fs := by
      unfold prepareFeatures
      rw [if_neg hlen, hlast]
      exact ⟨_, rfl⟩
    refine ⟨⟨?_, fun h => absurd h hlen⟩, ?_⟩
    · rintro ⟨e, he⟩
      obtain ⟨fs, hfs⟩ := hok
      rw [hfs] at he
      cases he
    · intro meta hmd _
      subst hmd
      have heq : prepareFeatures m (some meta) candles = Except.ok
          ((rawFeatures m candles lastC ++ List.replicate
            (meta.n_features - (rawFeatures m candles lastC).length) 0).take
            meta.n_features) := by
        unfold prepareFeatures
        rw [if_neg hlen, hlast]
      exact ⟨_, heq, pad_take_length _ _⟩

/-- The opaque primitives instantiated trivially (all zero), enough for
concrete evaluations that do not depend on them. -/
def trivPrims : MathPrims :=
  ⟨fun _ => 0, fun _ => 0, fun _ => 0, fun _ => 0, fun _ => 0⟩

/-- A manifest asking for 7 features (exercises truncation). -/
def metaSeven : ModelMetadata := ⟨[], 7⟩

/-- The degenerate all-zero candle. -/
def zeroCandle : Candle15m := ⟨0, 0, 0, 0, 0, 0⟩

/-- Twenty all-zero candles: long enough for `prepareFeatures`, with every
price equal (and zero). -/
def zeroHistory : List Candle15m := List.replicate 20 zeroCandle

/-- Witness for C8: a 1-candle history fails, and the 20-candle history
with a 7-feature manifest yields exactly 7 features. -/
theorem prepareFeatures_precondition_and_shape_witness :
    (∃ e, prepareFeatures trivPrims none [zeroCandle] = Except.error e) ∧
    (∃ fs, prepareFeatures trivPrims (some metaSeven) zeroHistory
        = Except.ok fs ∧ fs.length = metaSeven.n_features) :=
  ⟨(prepareFeatures_precondition_and_shape trivPrims none [zeroCandle]).1.mpr
      (by decide),
    (prepareFeatures_precondition_and_shape trivPrims (some metaSeven)
      zeroHistory).2 metaSeven rfl (by decide)⟩

/-- C5 counterexample: on the 20-candle all-zero history (every price in
the window equal, previous close zero) `prepareFeatures` runs (no error),
yet the denominator of the very first ratio feature (`return_1`, dividing
by the looked-up previous close) is exactly 0 with no epsilon added. -/
theorem prepareFeatures_unguarded_zero_denominator :
    zeroHistory.length = 20 ∧
    zeroHistory.getLast? = some zeroCandle ∧
    Except.isOk (prepareFeatures trivPrims none zeroHistory) = true ∧
    (unguardedDenominators trivPrims zeroHistory zeroCandle).head?
      = some 0 := by
  decide

/-- C5 (amended): only the candle-shape ratios, Bollinger position, volume
ratio, volume change, rate-of-change and z-score receive the `1e-10`
epsilon; those guarded denominators are strictly positive for any history
of candles with nonnegative closes and volumes and `low ≤ high` (with a
square root that is nonnegative on nonnegative inputs).  The remaining
ratio features (returns, Bollinger width, the volatility ratios and the
close-to-EMA ratios) divide by unguarded quantities. -/
theorem guardedDenominators_pos (m : MathPrims) (candles : List Candle15m)
    (last : Candle15m)
    (hsqrt : ∀ x : ℚ, 0 ≤ x → 0 ≤ m.sqrt x)
    (hcand : ∀ c ∈ candles, 0 ≤ c.close ∧ 0 ≤ c.volume ∧ c.low ≤ c.high)
    (hlast : candles.getLast? = some last) :
    ∀ d ∈ guardedDenominators m candles last, 0 < d := by
  have hlastmem : last ∈ candles := mem_of_getLast_opt hlast
  have hcl : ∀ x ∈ candles.map Candle15m.close, 0 ≤ x := by
    intro x hx
    rw [List.mem_map] at hx
    obtain ⟨c, hc, rfl⟩ := hx
    exact (hcand c hc).1
  have hvol : ∀ x ∈ candles.map Candle15m.volume, 0 ≤ x := by
    intro x hx
    rw [List.mem_map] at hx
    obtain ⟨c, hc, rfl⟩ := hx
    exact (hcand c hc).2.1
  have hEPS : (0:ℚ) < EPS := by norm_num [EPS]
  have hbb : 0 ≤ stdDev m.sqrt ((candles.map Candle15m.close).drop
      ((candles.map Candle15m.close).length - 20)) :=
    stdDev_nonneg m.sqrt hsqrt _
  have hstd8 : 0 ≤ stdDev m.sqrt ((candles.map Candle15m.close).drop
      ((candles.map Candle15m.close).length - 8)) :=
    stdDev_nonneg m.sqrt hsqrt _
  have hsma : 0 ≤ sma (candles.map Candle15m.volume) 8 := sma_nonneg hvol 8
  have hpv : 0 ≤ (candles.map Candle15m.volume).getD
      ((candles.map Candle15m.volume).length - 2) last.volume :=
    getD_nonneg hvol (hcand last hlastmem).2.1
  have hc4 : 0 ≤ (candles.map Candle15m.close).getD
      ((candles.map Candle15m.close).length - 5) last.close :=
    getD_nonneg hcl (hcand last hlastmem).1
  have hrange : last.low ≤ last.high := (hcand last hlastmem).2.2
  intro d hd
  simp only [guardedDenominators, featureInterm, List.mem_cons,
    List.not_mem_nil, or_false] at hd
  rcases hd with rfl | rfl | rfl | rfl | rfl | rfl
  · linarith
  · linarith
  · linarith
  · linarith
  · linarith
  · linarith

/-- A well-formed constant candle: positive prices, `low ≤ high`. -/
def posCandle : Candle15m := ⟨0, 1, 2, 1, 1, 1⟩

/-- Twenty copies of the well-formed candle. -/
def posHistory : List Candle15m := List.replicate 20 posCandle

/-- Witness for the amended C5: on the well-formed 20-candle history the
first epsilon-guarded denominator (the candle-shape body range) is
strictly positive. -/
theorem guardedDenominators_pos_witness :
    0 < (featureInterm trivPrims posHistory posCandle).bodyRange :=
  guardedDenominators_pos trivPrims posHistory posCandle
    (fun _ _ => le_refl 0) (by decide) (by decide)
    (featureInterm trivPrims posHistory posCandle).bodyRange
    (by
      unfold guardedDenominators
      dsimp only
      exact List.mem_cons_self _ _)

/-! ## index.ts : the decision cycle (`executeTrade`), dedup and circuit
breaker -/

/-- Outcome of one `placeBetUp`/`placeBetDown` call as observed by
`executeTrade`: the broker returned a (truthy) response object, returned
`null`, or threw.  The source records a completed trade on any truthy
response and counts an API error on `null` or a throw. -/
inductive OrderOutcome where
  | responded
  | returnedNull
  | threw
deriving DecidableEq

/-- The configuration values read by the decision cycle.
`maxKellyFraction` models the `MAX_KELLY_FRACTION` environment constant,
which the sizing path never reads. -/
structure Config where
  minConfidenceUp : ℚ
  minConfidenceDown : ℚ
  bankroll : ℚ
  maxKellyFraction : ℚ
deriving DecidableEq

/-- Everything one decision cycle reads from outside the bot state: the
current window id, feed health, the candle snapshot, the model output
(`none` models a thrown prediction), market prices, liquidity-check
verdicts and the broker's reaction to an order. -/
structure CycleEnv where
  windowId : String
  feedHealthy : Bool
  candles : List Candle15m
  probUp : Option ℚ
  upPrice : ℚ
  downPrice : ℚ
  upLiquidity : Bool
  downLiquidity : Bool
  upOutcome : OrderOutcome
  downOutcome : OrderOutcome
deriving DecidableEq

/-- The mutable module state of `index.ts`. -/
structure BotState where
  lastTradedWindowId : String
  apiErrorCount : Nat
  totalPredictions : Nat
  upBets : Nat
  downBets : Nat
  skippedBets : Nat
deriving DecidableEq

/-- The state at process start. -/
def initialBotState : BotState := ⟨"", 0, 0, 0, 0, 0⟩

/-- Embedding of `canTrade` from `index.ts` (`MAX_API_ERRORS = 3` per `config.ts`):
error threshold first, then the per-window dedup, then feed health. -/
def canTrade (s : BotState) (env : CycleEnv) : Bool :=
  if 3 ≤ s.apiErrorCount then false
  else if env.windowId = s.lastTradedWindowId then false
  else if !env.feedHealthy then false
  else true

/-- An order submission (one call into `placeBetUp`/`placeBetDown`),
with the stake and the broker outcome. -/
inductive SubEvent where
  | up (size : ℚ) (outcome : OrderOutcome)
  | down (size : ℚ) (outcome : OrderOutcome)
deriving DecidableEq

/-- The broker outcome carried by a submission event. -/
def eventOutcome : SubEvent → OrderOutcome
  | SubEvent.up _ o => o
  | SubEvent.down _ o => o

/-- Embedding of `executeTrade` from `index.ts`, as a transition on the bot state that
also reports the submissions performed this cycle.  `recordTrade` is the
`lastTradedWindowId := env.windowId` update on a truthy response;
`recordApiError` is the counter increment on `null` or a throw. -/
def executeTrade (cfg : Config) (env : CycleEnv) (s : BotState) :
    BotState × List SubEvent :=
  let s1 := { s with totalPredictions := s.totalPredictions + 1 }
  if !(canTrade s1 env) then
    ({ s1 with skippedBets := s1.skippedBets + 1 }, [])
  else if env.candles.length < 20 then
    ({ s1 with skippedBets := s1.skippedBets + 1 }, [])
  else
    match env.probUp with
    | none => ({ s1 with skippedBets := s1.skippedBets + 1 }, [])
    | some probUp =>
      let probDown := 1 - probUp
      let upEdge := probUp - env.upPrice
      let downEdge := probDown - env.downPrice
      let volTooLow :=
        match env.candles.getLast? with
        | some lastCandle =>
          decide ((lastCandle.high - lastCandle.low) / lastCandle.close
            < 1/1000)
        | none => false
      if volTooLow then
        ({ s1 with skippedBets := s1.skippedBets + 1 }, [])
      else if cfg.minConfidenceUp < probUp ∧ 1/50 < upEdge then
        let s2 := { s1 with upBets := s1.upBets + 1 }
        let betSize := calculateBetSize cfg.bankroll probUp env.upPrice
        if betSize < 1 then (s2, [])
        else if !env.upLiquidity then
          ({ s2 with skippedBets := s2.skippedBets + 1 }, [])
        else
          match env.upOutcome with
          | OrderOutcome.responded =>
            ({ s2 with lastTradedWindowId := env.windowId },
              [SubEvent.up betSize OrderOutcome.responded])
          | OrderOutcome.returnedNull =>
            ({ s2 with apiErrorCount := s2.apiErrorCount + 1 },
              [SubEvent.up betSize OrderOutcome.returnedNull])
          | OrderOutcome.threw =>
            ({ s2 with apiErrorCount := s2.apiErrorCount + 1 },
              [SubEvent.up betSize OrderOutcome.threw])
      else if probUp < cfg.minConfidenceDown ∧ 1/50 < downEdge then
        let s2 := { s1 with downBets := s1.downBets + 1 }
        let betSize := calculateBetSize cfg.bankroll probDown env.downPrice
        if betSize < 1 then (s2, [])
        else if !env.downLiquidity then
          ({ s2 with skippedBets := s2.skippedBets + 1 }, [])
        else
          match env.downOutcome with
          | OrderOutcome.responded =>
            ({ s2 with lastTradedWindowId := env.windowId },
              [SubEvent.down betSize OrderOutcome.responded])
          | OrderOutcome.returnedNull =>
            ({ s2 with apiErrorCount := s2.apiErrorCount + 1 },
              [SubEvent.down betSize OrderOutcome.returnedNull])
          | OrderOutcome.threw =>
            ({ s2 with apiErrorCount := s2.apiErrorCount + 1 },
              [SubEvent.down betSize OrderOutcome.threw])
      else
        ({ s1 with skippedBets := s1.skippedBets + 1 }, [])

/-- A sequence of decision cycles, returning the per-cycle submissions. -/
def runCycles (cfg : Config) (envs : List CycleEnv) (s : BotState) :
    BotState × List (List SubEvent) :=
  match envs with
  | [] => (s, [])
  | e :: rest =>
    let r1 := executeTrade cfg e s
    let r2 := runCycles cfg rest r1.1
    (r2.1, r1.2 :: r2.2)

/-- Lemma: `canTrade` says yes exactly below the error threshold, on a fresh
window, with a healthy feed. -/
theorem canTrade_true_iff (s : BotState) (env : CycleEnv) :
    canTrade s env = true ↔
      s.apiErrorCount < 3 ∧ env.windowId ≠ s.lastTradedWindowId ∧
        env.feedHealthy = true := by
  unfold canTrade
  split_ifs with h1 h2 h3 <;> simp_all <;> omega

/-- Branch analysis of one decision cycle: the API-error counter never
decreases; an open breaker or a repeated window refuses the cycle with no
submission; and each cycle submits at most one order, recording the window
on a truthy response and counting an error otherwise. -/
theorem executeTrade_analysis (cfg : Config) (env : CycleEnv)
    (s : BotState) :
    s.apiErrorCount ≤ (executeTrade cfg env s).1.apiErrorCount ∧
    (3 ≤ s.apiErrorCount → (executeTrade cfg env s).2 = [] ∧
      (executeTrade cfg env s).1.apiErrorCount = s.apiErrorCount ∧
      (executeTrade cfg env s).1.lastTradedWindowId
        = s.lastTradedWindowId) ∧
    (env.windowId = s.lastTradedWindowId →
      (executeTrade cfg env s).2 = []) ∧
    ((executeTrade cfg env s).2 = [] ∧
        (executeTrade cfg env s).1.lastTradedWindowId
          = s.lastTradedWindowId ∨
      ∃ ev, (executeTrade cfg env s).2 = [ev] ∧
        (eventOutcome ev = OrderOutcome.responded →
          (executeTrade cfg env s).1.lastTradedWindowId = env.windowId) ∧
        (eventOutcome ev ≠ OrderOutcome.responded →
          (executeTrade cfg env s).1.lastTradedWindowId
            = s.lastTradedWindowId ∧
          (executeTrade cfg env s).1.apiErrorCount
            = s.apiErrorCount + 1)) := by
  by_cases hct : canTrade
      { s with totalPredictions := s.totalPredictions + 1 } env = true
  · obtain ⟨hcnt, hwid, hfh⟩ := (canTrade_true_iff _ _).mp hct
    dsimp only at hcnt hwid
    unfold executeTrade
    dsimp only
    rw [hct]
    simp only [Bool.not_true]
    rw [if_neg (by simp)]
    refine ⟨?_, ?_, ?_, ?_⟩
    · repeat' split
      all_goals dsimp only
      all_goals omega
    · intro h
      exact absurd h (by omega)
    · intro h
      exact absurd h hwid
    · repeat' split
      all_goals first
        | exact Or.inl ⟨rfl, rfl⟩
        | exact Or.inr ⟨_, rfl, fun _ => rfl, fun hne => absurd rfl hne⟩
        | exact Or.inr ⟨_, rfl, fun hresp => OrderOutcome.noConfusion hresp,
            fun _ => ⟨rfl, rfl⟩⟩
  · rw [Bool.not_eq_true] at hct
    unfold executeTrade
    dsimp only
    rw [hct]
    simp

/-- One-step unfolding of `runCycles`. -/
theorem runCycles_cons (cfg : Config) (e : CycleEnv) (rest : List CycleEnv)
    (s : BotState) :
    runCycles cfg (e :: rest) s =
      ((runCycles cfg rest (executeTrade cfg e s).1).1,
        (executeTrade cfg e s).2
          :: (runCycles cfg rest (executeTrade cfg e s).1).2) := rfl

/-- The last element of a nonempty constant list. -/
theorem getLast_replicate {α : Type*} (n : Nat) (a : α) :
    (List.replicate (n + 1) a).getLast? = some a := by
  induction n with
  | zero => rfl
  | succ n ih =>
    rw [List.replicate_succ, List.replicate_succ, List.getLast?_cons_cons,
      ← List.replicate_succ]
    exact ih

/-- The configuration used by the concrete runs: default confidence
thresholds 0.55/0.45, bankroll 1000, `MAX_KELLY_FRACTION` 0.25. -/
def cfgC : Config := ⟨11/20, 9/20, 1000, 1/4⟩

/-- A candle with 1 percent range, passing the volatility filter. -/
def cexCandle : Candle15m := ⟨0, 100, 101, 100, 100, 1⟩

/-- Twenty such candles: enough history. -/
def cexCandles : List Candle15m := List.replicate 20 cexCandle

/-- A qualifying cycle environment: healthy feed, confident model
(`probUp = 0.9`), market at 0.5 (edge 0.4), ample liquidity; the window id
and the broker outcome vary. -/
def cexEnv (w : String) (o : OrderOutcome) : CycleEnv :=
  { windowId := w, feedHealthy := true, candles := cexCandles,
    probUp := some (9/10), upPrice := 1/2, downPrice := 1/2,
    upLiquidity := true, downLiquidity := true,
    upOutcome := o, downOutcome := o }

/-- Concrete evaluation of a cycle on the qualifying environment: below
the error threshold and on a fresh window it always submits one UP order
of 100 dollars; a truthy response records the window, anything else
increments the error counter. -/
theorem executeTrade_cexEnv (w : String) (o : OrderOutcome) (s : BotState)
    (hcnt : s.apiErrorCount < 3) (hwid : w ≠ s.lastTradedWindowId) :
    executeTrade cfgC (cexEnv w o) s =
      ((match o with
        | OrderOutcome.responded =>
          { s with totalPredictions := s.totalPredictions + 1,
                   upBets := s.upBets + 1, lastTradedWindowId := w }
        | OrderOutcome.returnedNull =>
          { s with totalPredictions := s.totalPredictions + 1,
                   upBets := s.upBets + 1,
                   apiErrorCount := s.apiErrorCount + 1 }
        | OrderOutcome.threw =>
          { s with totalPredictions := s.totalPredictions + 1,
                   upBets := s.upBets + 1,
                   apiErrorCount := s.apiErrorCount + 1 }),
        [SubEvent.up 100 o]) := by
  have hbet : calculateBetSize 1000 (9/10) (1/2) = 100 := by
    norm_num [calculateBetSize, kellyBetSize]
  have hct : canTrade { s with totalPredictions := s.totalPredictions + 1 }
      (cexEnv w o) = true := by
    rw [canTrade_true_iff]
    exact ⟨hcnt, hwid, rfl⟩
  cases o <;>
    (unfold executeTrade
     dsimp only
     rw [hct]
     simp only [Bool.not_true, cexEnv, cexCandles, cexCandle, cfgC]
     rw [if_neg (by simp)]
     rw [if_neg (by simp)]
     rw [show (List.replicate 20 (⟨0, 100, 101, 100, 100, 1⟩ :
        Candle15m)).getLast? = some ⟨0, 100, 101, 100, 100, 1⟩ from
        getLast_replicate 19 _]
     norm_num [hbet])

/-- Once the last-traded window equals `W`, any further cycles whose
current window is `W` are all refused: no submission at all. -/
theorem runCycles_nothing_after_trade (cfg : Config) (W : String) :
    ∀ (envs : List CycleEnv) (s : BotState),
      (∀ e ∈ envs, e.windowId = W) → s.lastTradedWindowId = W →
      (runCycles cfg envs s).2.flatten = [] := by
  intro envs
  induction envs with
  | nil => intro s _ _; rfl
  | cons e rest ih =>
    intro s hW hs
    rw [runCycles_cons]
    have hana := executeTrade_analysis cfg e s
    have hevs : (executeTrade cfg e s).2 = [] :=
      hana.2.2.1 (by rw [hW e (List.mem_cons_self _ _), hs])
    have hltw : (executeTrade cfg e s).1.lastTradedWindowId = W := by
      rcases hana.2.2.2 with ⟨_, hp⟩ | ⟨ev, hev, _, _⟩
      · rw [hp, hs]
      · rw [hevs] at hev; cases hev
    rw [List.flatten_cons, hevs, List.nil_append]
    exact ih _ (fun x hx => hW x (List.mem_cons_of_mem _ hx)) hltw

/-- C1 (amended): across any sequence of decision cycles whose current
window id is `W`, nothing follows a submission that got a truthy response:
after the first completed (responded) submission for `W`, every later
cycle is skipped with no order submitted — so at most one completed
submission per window.  (Cycles whose submission failed do not mark the
window and may submit again.) -/
theorem executeTrade_dedup_per_window (cfg : Config) (W : String) :
    ∀ (envs : List CycleEnv) (s : BotState),
      (∀ e ∈ envs, e.windowId = W) →
      ∀ pre ev post,
        (runCycles cfg envs s).2.flatten = pre ++ ev :: post →
        eventOutcome ev = OrderOutcome.responded → post = [] := by
  intro envs
  induction envs with
  | nil =>
    intro s _ pre ev post h _
    simp only [runCycles, List.flatten_nil] at h
    exact absurd h.symm (by simp)
  | cons e rest ih =>
    intro s hW pre ev post h hresp
    rw [runCycles_cons] at h
    rw [List.flatten_cons] at h
    have hana := executeTrade_analysis cfg e s
    rcases hana.2.2.2 with ⟨hnil, hltw⟩ | ⟨ev1, hev1, hrsp1, hnrsp1⟩
    · rw [hnil, List.nil_append] at h
      exact ih _ (fun x hx => hW x (List.mem_cons_of_mem _ hx))
        pre ev post h hresp
    · rw [hev1] at h
      cases pre with
      | nil =>
        rw [List.nil_append] at h
        rw [List.singleton_append] at h
        injection h with h1 h2
        have hltw : (executeTrade cfg e s).1.lastTradedWindowId = W := by
          rw [hrsp1 (h1 ▸ hresp), hW e (List.mem_cons_self _ _)]
        rw [← h2]
        exact runCycles_nothing_after_trade cfg W rest _
          (fun x hx => hW x (List.mem_cons_of_mem _ hx)) hltw
      | cons p pre2 =>
        rw [List.singleton_append, List.cons_append] at h
        injection h with h1 h2
        exact ih _ (fun x hx => hW x (List.mem_cons_of_mem _ hx))
          pre2 ev post h2 hresp

/-- C1 counterexample: with the first submission for window "W" failing
(`placeBetUp` returns null), `recordTrade` never runs, so a second cycle
for the SAME window submits again — two order submissions for one
WindowId. -/
theorem dedup_counterexample :
    (executeTrade cfgC (cexEnv "W" OrderOutcome.returnedNull)
      initialBotState).2.length = 1 ∧
    (executeTrade cfgC (cexEnv "W" OrderOutcome.returnedNull)
      (executeTrade cfgC (cexEnv "W" OrderOutcome.returnedNull)
        initialBotState).1).2.length = 1 := by
  have h1 := executeTrade_cexEnv "W" OrderOutcome.returnedNull
    initialBotState (by decide) (by decide)
  rw [h1]
  dsimp only
  have h2 := executeTrade_cexEnv "W" OrderOutcome.returnedNull
    ({ initialBotState with
        totalPredictions := initialBotState.totalPredictions + 1,
        upBets := initialBotState.upBets + 1,
        apiErrorCount := initialBotState.apiErrorCount + 1 })
    (by decide) (by decide)
  rw [h2]
  exact ⟨rfl, rfl⟩

/-- Witness for the amended C1: a single responded cycle for window "W";
its submission is the last event of the run. -/
theorem executeTrade_dedup_per_window_witness :
    ([] : List SubEvent) = [] :=
  executeTrade_dedup_per_window cfgC "W"
    [cexEnv "W" OrderOutcome.responded] initialBotState
    (fun e he => by rw [List.mem_singleton] at he; subst he; rfl)
    [] (SubEvent.up 100 OrderOutcome.responded) []
    (by
      rw [runCycles_cons]
      rw [List.flatten_cons]
      rw [congrArg Prod.snd (executeTrade_cexEnv "W"
        OrderOutcome.responded initialBotState (by decide) (by decide))]
      rfl)
    rfl

/-- C2 (amended): the API-error counter is cumulative for the process
lifetime — it never decreases and a successful submission does not reset
it; once it has reached `MAX_API_ERRORS = 3`, every subsequent cycle is
refused with no submission, forever. -/
theorem circuitBreaker_cumulative (cfg : Config) :
    (∀ env s, s.apiErrorCount ≤ (executeTrade cfg env s).1.apiErrorCount) ∧
    (∀ env s, 3 ≤ s.apiErrorCount → (executeTrade cfg env s).2 = [] ∧
      (executeTrade cfg env s).1.apiErrorCount = s.apiErrorCount) ∧
    (∀ envs s, 3 ≤ s.apiErrorCount →
      (runCycles cfg envs s).2.flatten = []) := by
  refine ⟨fun env s => (executeTrade_analysis cfg env s).1,
    fun env s h => ⟨((executeTrade_analysis cfg env s).2.1 h).1,
      ((executeTrade_analysis cfg env s).2.1 h).2.1⟩, ?_⟩
  intro envs
  induction envs with
  | nil => intro s _; rfl
  | cons e rest ih =>
    intro s h
    rw [runCycles_cons, List.flatten_cons]
    have h1 := (executeTrade_analysis cfg e s).2.1 h
    rw [h1.1, List.nil_append]
    exact ih _ (by rw [h1.2.1]; exact h)

/-- C2 counterexample: failures in windows W1, W3, W4 with a SUCCESS in
W2 in between still accumulate to 3, opening the breaker — the success
did not reset the counter (there were only 2 consecutive failures when
the breaker opened), and the next qualifying cycle (window W5) is refused
with no submission. -/
theorem circuitBreaker_counterexample :
    (runCycles cfgC
      [cexEnv "W1" OrderOutcome.threw, cexEnv "W2" OrderOutcome.responded,
        cexEnv "W3" OrderOutcome.threw, cexEnv "W4" OrderOutcome.threw]
      initialBotState).1.apiErrorCount = 3 ∧
    (executeTrade cfgC (cexEnv "W5" OrderOutcome.responded)
      (runCycles cfgC
        [cexEnv "W1" OrderOutcome.threw, cexEnv "W2" OrderOutcome.responded,
          cexEnv "W3" OrderOutcome.threw, cexEnv "W4" OrderOutcome.threw]
        initialBotState).1).2 = [] := by
  have h1 : (executeTrade cfgC (cexEnv "W1" OrderOutcome.threw)
      initialBotState).1 = ⟨"", 1, 1, 1, 0, 0⟩ := by
    rw [executeTrade_cexEnv "W1" OrderOutcome.threw initialBotState
      (by decide) (by decide)]
    rfl
  have h2 : (executeTrade cfgC (cexEnv "W2" OrderOutcome.responded)
      (⟨"", 1, 1, 1, 0, 0⟩ : BotState)).1 = ⟨"W2", 1, 2, 2, 0, 0⟩ := by
    rw [executeTrade_cexEnv "W2" OrderOutcome.responded _
      (by decide) (by decide)]
  have h3 : (executeTrade cfgC (cexEnv "W3" OrderOutcome.threw)
      (⟨"W2", 1, 2, 2, 0, 0⟩ : BotState)).1 = ⟨"W2", 2, 3, 3, 0, 0⟩ := by
    rw [executeTrade_cexEnv "W3" OrderOutcome.threw _
      (by decide) (by decide)]
  have h4 : (executeTrade cfgC (cexEnv "W4" OrderOutcome.threw)
      (⟨"W2", 2, 3, 3, 0, 0⟩ : BotState)).1 = ⟨"W2", 3, 4, 4, 0, 0⟩ := by
    rw [executeTrade_cexEnv "W4" OrderOutcome.threw _
      (by decide) (by decide)]
  have hrun : (runCycles cfgC
      [cexEnv "W1" OrderOutcome.threw, cexEnv "W2" OrderOutcome.responded,
        cexEnv "W3" OrderOutcome.threw, cexEnv "W4" OrderOutcome.threw]
      initialBotState).1 = ⟨"W2", 3, 4, 4, 0, 0⟩ := by
    simp only [runCycles_cons, h1, h2, h3, h4]
    rfl
  refine ⟨by rw [hrun], ?_⟩
  rw [hrun]
  exact ((executeTrade_analysis cfgC _ _).2.1 (by decide)).1

/-- Witness for the amended C2: with the counter already at 3, a run over
a qualifying environment produces no submission at all. -/
theorem circuitBreaker_cumulative_witness :
    (runCycles cfgC [cexEnv "W" OrderOutcome.responded]
      (⟨"", 3, 0, 0, 0, 0⟩ : BotState)).2.flatten = [] :=
  (circuitBreaker_cumulative cfgC).2.2
    [cexEnv "W" OrderOutcome.responded] ⟨"", 3, 0, 0, 0, 0⟩ (by decide)

/-- C10: the decision cycle — in particular its sizing path — is
invariant under the configured `MAX_KELLY_FRACTION`: two runs that differ
only in that constant behave identically, because `calculateBetSize`
always uses the hard-coded quarter-Kelly 0.25 and cap 0.10. -/
theorem maxKellyFraction_noninterference :
    (∀ (cfg : Config) (x : ℚ) (env : CycleEnv) (s : BotState),
      executeTrade { cfg with maxKellyFraction := x } env s
        = executeTrade cfg env s) ∧
    (∀ bankroll probWin marketPrice : ℚ,
      calculateBetSize bankroll probWin marketPrice
        = bankroll * kellyBetSize probWin marketPrice (1/4) (1/10)) := by
  constructor
  · intro cfg x env s
    cases cfg
    rfl
  · intro b p mp
    rfl

/-! ## The Polymarket client : order placement and dry-run mode -/

/-- The client's statistics counters. -/
structure PolyStats where
  totalOrders : Nat
  successfulOrders : Nat
  failedOrders : Nat
  totalVolume : ℚ
deriving DecidableEq

/-- An order response from the broker (id and status). -/
structure OrderResponse where
  orderID : String
  status : String
deriving DecidableEq

/-- The production submission path's outcome: the API answered with a
response, or the sign/submit call threw. -/
inductive ApiOutcome where
  | ok (r : OrderResponse)
  | threw
deriving DecidableEq

/-- Result of a `placeBetUp`/`placeBetDown` call: the returned value
(`none` models `null`), the updated statistics, and whether an order was
actually signed and posted to the broker. -/
structure PlaceBetResult where
  response : Option OrderResponse
  stats : PolyStats
  submitted : Bool
deriving DecidableEq

/-- Embedding of `placeBetUp` from the Polymarket client.  `now` stands for
`Date.now()` (used for the dry-run order id), `upPrice` for the fetched
market price and `api` for the production submission's outcome.  When
`IS_PRODUCTION` is false the function returns a simulated response and
books the order as successful without signing or submitting anything. -/
def placeBetUp (isProduction : Bool) (upTokenId : String)
    (sizeUsd upPrice : ℚ) (now : Nat) (api : ApiOutcome)
    (st : PolyStats) : PlaceBetResult :=
  if upTokenId = "" then ⟨none, st, false⟩
  else
    let st1 := { st with totalOrders := st.totalOrders + 1 }
    let priceWithSlippage := min (upPrice * (1005/1000)) (99/100)
    let shares := sizeUsd / priceWithSlippage
    if !isProduction then
      ⟨some ⟨"dry-run-" ++ toString now, "simulated"⟩,
        { st1 with successfulOrders := st1.successfulOrders + 1,
                   totalVolume := st1.totalVolume + sizeUsd }, false⟩
    else
      match api with
      | ApiOutcome.ok r =>
        if r.status = "matched" ∨ r.status = "live" then
          ⟨some r,
            { st1 with successfulOrders := st1.successfulOrders + 1,
                       totalVolume := st1.totalVolume + sizeUsd }, true⟩
        else
          ⟨some r, { st1 with failedOrders := st1.failedOrders + 1 }, true⟩
      | ApiOutcome.threw =>
        ⟨none, { st1 with failedOrders := st1.failedOrders + 1 }, true⟩

/-- Embedding of `placeBetDown` from the Polymarket client: the DOWN twin of
`placeBetUp`. -/
def placeBetDown (isProduction : Bool) (downTokenId : String)
    (sizeUsd downPrice : ℚ) (now : Nat) (api : ApiOutcome)
    (st : PolyStats) : PlaceBetResult :=
  if downTokenId = "" then ⟨none, st, false⟩
  else
    let st1 := { st with totalOrders := st.totalOrders + 1 }
    let priceWithSlippage := min (downPrice * (1005/1000)) (99/100)
    let shares := sizeUsd / priceWithSlippage
    if !isProduction then
      ⟨some ⟨"dry-run-" ++ toString now, "simulated"⟩,
        { st1 with successfulOrders := st1.successfulOrders + 1,
                   totalVolume := st1.totalVolume + sizeUsd }, false⟩
    else
      match api with
      | ApiOutcome.ok r =>
        if r.status = "matched" ∨ r.status = "live" then
          ⟨some r,
            { st1 with successfulOrders := st1.successfulOrders + 1,
                       totalVolume := st1.totalVolume + sizeUsd }, true⟩
        else
          ⟨some r, { st1 with failedOrders := st1.failedOrders + 1 }, true⟩
      | ApiOutcome.threw =>
        ⟨none, { st1 with failedOrders := st1.failedOrders + 1 }, true⟩

/-- C9: with `IS_PRODUCTION` false and a configured token id, both
`placeBetUp` and `placeBetDown` never sign or submit (`submitted =
false`), return a "simulated" response with a "dry-run-" order id, and
increment `successfulOrders` and `totalVolume` exactly as a successful
(matched) production order would. -/
theorem placeBet_dry_run (tokUp tokDown : String)
    (sizeUsd upPrice downPrice : ℚ) (now : Nat) (api : ApiOutcome)
    (st : PolyStats) (hUp : tokUp ≠ "") (hDown : tokDown ≠ "") :
    placeBetUp false tokUp sizeUsd upPrice now api st
      = ⟨some ⟨"dry-run-" ++ toString now, "simulated"⟩,
          { st with totalOrders := st.totalOrders + 1,
                    successfulOrders := st.successfulOrders + 1,
                    totalVolume := st.totalVolume + sizeUsd }, false⟩ ∧
    placeBetDown false tokDown sizeUsd downPrice now api st
      = ⟨some ⟨"dry-run-" ++ toString now, "simulated"⟩,
          { st with totalOrders := st.totalOrders + 1,
                    successfulOrders := st.successfulOrders + 1,
                    totalVolume := st.totalVolume + sizeUsd }, false⟩ ∧
    (placeBetUp false tokUp sizeUsd upPrice now api st).stats
      = (placeBetUp true tokUp sizeUsd upPrice now
          (ApiOutcome.ok ⟨"id1", "matched"⟩) st).stats ∧
    (placeBetDown false tokDown sizeUsd downPrice now api st).stats
      = (placeBetDown true tokDown sizeUsd downPrice now
          (ApiOutcome.ok ⟨"id2", "live"⟩) st).stats := by
  refine ⟨?_, ?_, ?_, ?_⟩
  · unfold placeBetUp
    rw [if_neg hUp]
    rfl
  · unfold placeBetDown
    rw [if_neg hDown]
    rfl
  · unfold placeBetUp
    rw [if_neg hUp, if_neg hUp]
    rfl
  · unfold placeBetDown
    rw [if_neg hDown, if_neg hDown]
    rfl

/-- Witness for C9 at token id "T1", stake 5, `Date.now() = 7`. -/
theorem placeBet_dry_run_witness :
    placeBetUp false "T1" 5 (1/2) 7 ApiOutcome.threw ⟨0, 0, 0, 0⟩
      = ⟨some ⟨"dry-run-" ++ toString 7, "simulated"⟩,
          ⟨0 + 1, 0 + 1, 0, 0 + 5⟩, false⟩ :=
  (placeBet_dry_run "T1" "T2" 5 (1/2) (1/2) 7 ApiOutcome.threw
    ⟨0, 0, 0, 0⟩ (by decide) (by decide)).1

end PolyBot
